import Mathlib

/-!
Verification of the Attendance Session Lifecycle Engine of the
UNIOSUNTrack backend, shallowly embedded from the JavaScript source
(primarily the session route module with absentee reconciliation,
session close/cancel, QR scan with geofence validation, and the
manual-marking attendance routes).

Identifiers (Mongo ObjectIds, tokens) are modelled as natural numbers;
JavaScript numbers (timestamps in milliseconds, GPS coordinates,
accuracies, distances in meters) are modelled as rationals.  The
haversine distance function uses transcendental operations, so the
state-transition functions take the distance computation as an explicit
function parameter with the same signature as the source helper.
-/

namespace UniTrack

abbrev StudentId := Nat
abbrev CourseId := Nat
abbrev SessionId := Nat
abbrev UserId := Nat

/-- Session status enum: `["active", "expired", "cancelled"]` in the
Session schema. -/
inductive SessionStatus where
  | active
  | expired
  | cancelled
deriving DecidableEq, Repr

/-- Session type enum: `["QR", "MANUAL", "ROLLCALL"]` in the Session
schema. -/
inductive SessionType where
  | QR
  | MANUAL
  | ROLLCALL
deriving DecidableEq, Repr

/-- Attendance status enum: `["Present", "Absent", "NA"]` in the latest
Attendance schema (default "NA"). -/
inductive AttStatus where
  | Present
  | Absent
  | NA
deriving DecidableEq, Repr

/-- A rotating QR token entry of `session.validTokens`. -/
structure ValidToken where
  token : Nat
  expiresAt : Rat
deriving DecidableEq, Repr

/-- The `session.location` subdocument: `{lat, lng, radius, accuracy}`.
The schema gives `radius` default 60 and `accuracy` default 50. -/
structure GeoLoc where
  lat : Rat
  lng : Rat
  radius : Rat
  accuracy : Rat
deriving DecidableEq, Repr

/-- A persisted Session document (fields used by the engine). -/
structure Session where
  id : SessionId
  course : CourseId
  teacher : UserId
  semester : Nat
  status : SessionStatus
  typ : SessionType
  token : Nat
  validTokens : List ValidToken
  expiresAt : Rat
  createdAt : Rat
  location : Option GeoLoc
  cancelledAt : Option Rat
  cancelReason : Option Nat
deriving DecidableEq, Repr

/-- A student GPS fix sent with a scan request; any of the fields may be
missing or non-numeric, which `Number(...)` turns into `NaN`
(`Number.isFinite` then fails), modelled as `none`. -/
structure LocFix where
  lat : Option Rat
  lng : Option Rat
  accuracy : Option Rat
deriving DecidableEq, Repr

/-- A persisted Attendance document. Fields not set by a given write
path are `none`/defaults (`session` is absent for the day-keyed manual
marking path of the attendance routes). -/
structure AttendanceRecord where
  course : CourseId
  student : StudentId
  semester : Option Nat
  session : Option SessionId
  sessionType : Option SessionType
  status : AttStatus
  date : Rat
  faceVerified : Bool
  gpsLocation : Option LocFix
deriving DecidableEq, Repr

/-- An Enrollment document (`course`, `student`, `semester` as selected
by the reconciliation query). -/
structure Enrollment where
  course : CourseId
  student : StudentId
  semester : Nat
deriving DecidableEq, Repr

/-- A Course document (fields used by the engine: owner teacher, the
embedded `students` roster used by the manual-marking routes, and the
course semester copied into new sessions). -/
structure Course where
  id : CourseId
  teacher : UserId
  semester : Nat
  students : List StudentId
deriving DecidableEq, Repr

/-- The durable store visible to the engine: the four collections it
reads and writes. -/
structure State where
  sessions : List Session
  attendance : List AttendanceRecord
  enrollments : List Enrollment
  courses : List Course
deriving DecidableEq, Repr

/-! ### Derived read-only views used by the reconciliation code -/

/-- `Enrollment.find({course}).select("student semester")`: the
enrollment rows of a course. -/
def enrollmentsOf (st : State) (c : CourseId) : List Enrollment :=
  st.enrollments.filter (fun e => e.course = c)

/-- The roster: students enrolled in a course (the `student` field of
each enrollment row). -/
def rosterOf (st : State) (c : CourseId) : List StudentId :=
  (enrollmentsOf st c).map (fun e => e.student)

/-- `Attendance.find({session}).select("student")` mapped to student
ids: students already holding a record for the session. -/
def studentsRecorded (st : State) (sid : SessionId) : List StudentId :=
  (st.attendance.filter (fun a => a.session = some sid)).map (fun a => a.student)

/-- All attendance records of one (session, student) pair. -/
def recordsFor (st : State) (sid : SessionId) (stu : StudentId) : List AttendanceRecord :=
  st.attendance.filter (fun a => a.session = some sid ∧ a.student = stu)

/-! ### Reconciliation (absentee back-fill), from `markAbsenteesForSession` -/

/-- The Absent record built for an unmarked enrollment row at session
close. -/
def absentRecord (s : Session) (e : Enrollment) : AttendanceRecord :=
  { course := s.course
    student := e.student
    semester := some e.semester
    session := some s.id
    sessionType := some s.typ
    status := .Absent
    date := s.createdAt
    faceVerified := false
    gpsLocation := none }

/-- The absentee list built at close: an Absent record for exactly the
enrolled students without a record for the session (the set difference
enrolled − recorded, computed with the `markedStudentIds` set). -/
def absenteeRecords (s : Session) (st : State) : List AttendanceRecord :=
  ((enrollmentsOf st s.course).filter
    (fun e => ¬ (studentsRecorded st s.id).contains e.student)).map (absentRecord s)

/-- `markAbsenteesForSession(session)`: fetch the enrollment rows of the
session's course, fetch the students already marked for the session,
and `insertMany` an Absent record for exactly the enrolled students not
yet marked. -/
def markAbsenteesForSession (s : Session) (st : State) : State :=
  { st with attendance := st.attendance ++ absenteeRecords s st }

/-! ### Close (`endSession`) and cancel (`cancelSession`) -/

/-- The in-place status update performed by `fresh.save()` after
`fresh.status = "expired"; fresh.expiresAt = new Date()`. -/
def expireIf (sid : SessionId) (now : Rat) (t : Session) : Session :=
  if t.id = sid then { t with status := .expired, expiresAt := now } else t

/-- `endSession(session)`: re-read the session by id; if missing or
already `"expired"`, return immediately; otherwise set
`status = "expired"`, `expiresAt = now`, save, and run the absentee
reconciliation on the fresh document. -/
def endSession (sid : SessionId) (now : Rat) (st : State) : State :=
  match st.sessions.find? (fun t => t.id = sid) with
  | none => st
  | some fresh =>
    if fresh.status = .expired then st
    else
      let fresh1 := { fresh with status := .expired, expiresAt := now }
      let st1 := { st with sessions := st.sessions.map (expireIf sid now) }
      markAbsenteesForSession fresh1 st1

/-- The in-place update performed by saving a cancelled session
(`status = "cancelled"; cancelledAt = now; if (reason) cancelReason =
reason; expiresAt = now`). -/
def cancelIf (sid : SessionId) (now : Rat) (reason : Option Nat) (t : Session) : Session :=
  if t.id = sid then
    { t with status := .cancelled, cancelledAt := some now,
             cancelReason := match reason with | some r => some r | none => t.cancelReason,
             expiresAt := now }
  else t

/-- `cancelSession(session, io, reason)`: re-read the session by id; if
missing or not `"active"`, return immediately; otherwise mark it
cancelled, save, and `Attendance.deleteMany({session})`. -/
def cancelSession (sid : SessionId) (now : Rat) (reason : Option Nat) (st : State) : State :=
  match st.sessions.find? (fun t => t.id = sid) with
  | none => st
  | some fresh =>
    if fresh.status ≠ .active then st
    else
      { st with
        sessions := st.sessions.map (cancelIf sid now reason),
        attendance := st.attendance.filter (fun a => ¬ a.session = some sid) }

/-! ### Scan validation (`validateStudentForSession`) and the scan route -/

/-- Outcome of a scan request, one constructor per distinct response of
the scan route and of `validateStudentForSession`. -/
inductive ScanResult where
  | invalidToken
  | notQR
  | sessionExpired
  | notEnrolled
  | locationRequired
  | accuracyMissing
  | weakGPS
  | invalidCoords
  | fakeGPS
  | outsideZone
  | already
  | recorded
deriving DecidableEq, Repr

/-- The HTTP status code each scan outcome is sent with in the source. -/
def httpStatusOf : ScanResult → Nat
  | .invalidToken => 404
  | .notQR | .sessionExpired | .locationRequired
  | .accuracyMissing | .invalidCoords => 400
  | .notEnrolled | .weakGPS | .fakeGPS | .outsideZone => 403
  | .already => 409
  | .recorded => 201

/-- An HTTP status in the 2xx success class. -/
def isHttpSuccess (n : Nat) : Prop := 200 ≤ n ∧ n < 300

instance (n : Nat) : Decidable (isHttpSuccess n) := by
  unfold isHttpSuccess; infer_instance

/-- `validateStudentForSession(studentId, session, location)`: check
enrollment, then — when the session carries a usable GPS anchor (the
source tests `session.location?.lat && session.location?.lng`, so a
zero coordinate disables the geofence by JS truthiness) — validate the
student fix and enforce the accuracy-aware geofence.  `none` means the
validation passed; `some e` is the thrown rejection.  The haversine
helper `getDistanceInMeters` is passed in as `distFn`. -/
def validateStudentForSession (distFn : Rat → Rat → Rat → Rat → Rat)
    (studentId : StudentId) (s : Session) (loc? : Option LocFix) (st : State) :
    Option ScanResult :=
  if ¬ st.enrollments.any (fun e => e.course = s.course ∧ e.student = studentId) then
    some .notEnrolled
  else
    match s.location with
    | none => none
    | some g =>
      if g.lat = 0 ∨ g.lng = 0 then none
      else
        match loc? with
        | none => some .locationRequired
        | some loc =>
          match loc.accuracy with
          | none => some .accuracyMissing
          | some accuracy =>
            if accuracy > 300 then some .weakGPS
            else
              match loc.lat, loc.lng with
              | some studentLat, some studentLng =>
                let dist := distFn studentLat studentLng g.lat g.lng
                if dist < 5 ∧ accuracy > 30 then some .fakeGPS
                else
                  let allowedDistance :=
                    g.radius + max accuracy (if g.accuracy = 0 then 50 else g.accuracy)
                  if dist > allowedDistance then some .outsideZone else none
              | _, _ => some .invalidCoords

/-- The in-place update of `rotateQrToken(session)`: replace the
session's rotation set with a single fresh token valid for 10 seconds
(10000 ms). -/
def rotateTokensIf (sid : SessionId) (newTok : Nat) (now : Rat) (t : Session) : Session :=
  if t.id = sid then { t with validTokens := [⟨newTok, now + 10000⟩] } else t

/-- The Mongo query of the scan route: a session is matched when it is
active and either its primary token equals the scanned one or its
rotation set holds the scanned token unexpired. -/
def scanMatch (token : Nat) (now : Rat) (s : Session) : Bool :=
  s.status = .active ∧
    (s.token = token ∨ s.validTokens.any (fun vt => vt.token = token ∧ now < vt.expiresAt))

/-- The scan route `POST /scan/:token`: find an active session whose
primary token matches or whose rotation set holds an unexpired matching
token; reject non-QR sessions and sessions past their deadline; run
`validateStudentForSession`; answer 409 if a record already exists for
(session, student); otherwise create a Present record and, when the
primary token was used, rotate the QR token. -/
def scanToken (distFn : Rat → Rat → Rat → Rat → Rat) (token : Nat)
    (studentId : StudentId) (loc? : Option LocFix) (now : Rat) (newTok : Nat)
    (st : State) : State × ScanResult :=
  match st.sessions.find? (scanMatch token now) with
  | none => (st, .invalidToken)
  | some s =>
    if s.typ ≠ .QR then (st, .notQR)
    else if s.expiresAt < now then (st, .sessionExpired)
    else
      match validateStudentForSession distFn studentId s loc? st with
      | some e => (st, e)
      | none =>
        if st.attendance.any (fun a => a.session = some s.id ∧ a.student = studentId) then
          (st, .already)
        else
          let newRec : AttendanceRecord :=
            { course := s.course, student := studentId, semester := some s.semester,
              session := some s.id, sessionType := some .QR, status := .Present,
              date := s.createdAt, faceVerified := true, gpsLocation := loc? }
          let st1 := { st with attendance := st.attendance ++ [newRec] }
          let st2 :=
            if s.token = token then
              { st1 with sessions := st1.sessions.map (rotateTokensIf s.id newTok now) }
            else st1
          (st2, .recorded)

/-! ### Active-session lookup (`GET /active/:courseId`) -/

/-- `Session.findOne({course, status: "active", expiresAt: {$gt: now}})`. -/
def getActiveSession (c : CourseId) (now : Rat) (st : State) : Option Session :=
  st.sessions.find? (fun s => s.course = c ∧ s.status = .active ∧ now < s.expiresAt)

/-! ### Session creation (`POST /:courseId/create`) -/

/-- Fold the idempotent close over a list of session ids, as the create
route's `for (const s of activeSessions) await endSession(s, io)` does
(and as the expiry sweep does over the due sessions). -/
def endAll (ids : List SessionId) (now : Rat) (st : State) : State :=
  ids.foldl (fun acc i => endSession i now acc) st

/-- JS `Number(x) || d`: a missing or zero value falls back to the
default. -/
def numOr (x? : Option Rat) (d : Rat) : Rat :=
  match x? with
  | none => d
  | some x => if x = 0 then d else x

/-- The location payload of a create request. -/
structure LocInput where
  lat : Option Rat
  lng : Option Rat
  accuracy : Option Rat
  radius : Option Rat
deriving DecidableEq, Repr

/-- Error responses of the create route that abort before a session is
persisted. -/
inductive CreateError where
  | courseNotFound
  | notAuthorized
  | locationRequired
  | invalidGPS
deriving DecidableEq, Repr

/-- The fresh Session document persisted by the create route. -/
def newSessionDoc (courseId : CourseId) (teacherId : UserId) (semester : Nat)
    (typ : SessionType) (tok : Nat) (expAt now : Rat) (newId : SessionId)
    (loc : Option GeoLoc) : Session :=
  { id := newId, course := courseId, teacher := teacherId, semester := semester,
    status := .active, typ := typ, token := tok, validTokens := [],
    expiresAt := expAt, createdAt := now, location := loc,
    cancelledAt := none, cancelReason := none }

/-- The create route `POST /:courseId/create`: resolve and authorize the
course; force-close (via `endSession`) every currently active session of
the course; clamp the duration to 1–180 minutes; for QR sessions
validate and normalize the lecturer location (accuracy clamped to
10–120 m, radius to 10–300 m with default 60); persist the new active
session.  Note the location validation errors fire after the previous
sessions were already closed, as in the source. -/
def createSession (courseId : CourseId) (teacherId : UserId)
    (typ? : Option SessionType) (duration? : Option Rat) (loc? : Option LocInput)
    (now : Rat) (newId tok : Nat) (st : State) : State × Except CreateError Session :=
  match st.courses.find? (fun c => c.id = courseId) with
  | none => (st, .error .courseNotFound)
  | some course =>
    if course.teacher ≠ teacherId then (st, .error .notAuthorized)
    else
      let safeType := typ?.getD .MANUAL
      let activeIds :=
        (st.sessions.filter (fun s => s.course = courseId ∧ s.status = .active)).map
          (fun s => s.id)
      let st1 := endAll activeIds now st
      let safeDuration := min (max (numOr duration? 10) 1) 180
      let expAt := now + safeDuration * 60 * 1000
      if safeType = .QR then
        match loc? with
        | none => (st1, .error .locationRequired)
        | some l =>
          match l.lat, l.lng with
          | some la, some ln =>
            match l.accuracy with
            | none => (st1, .error .invalidGPS)
            | some acc =>
              let normalizedAccuracy := min (max acc 10) 120
              let radius := min (max (numOr l.radius 60) 10) 300
              let s := newSessionDoc courseId teacherId course.semester .QR tok expAt now
                newId (some { lat := la, lng := ln, radius := radius,
                              accuracy := normalizedAccuracy })
              ({ st1 with sessions := st1.sessions ++ [s] }, .ok s)
          | _, _ => (st1, .error .locationRequired)
      else
        let s := newSessionDoc courseId teacherId course.semester safeType tok expAt now
          newId none
        ({ st1 with sessions := st1.sessions ++ [s] }, .ok s)

/-! ### Manual marking (attendance routes) -/

/-- Outcome of a manual-mark request. -/
inductive MarkResult where
  | courseNotFound
  | notAuthorized
  | notEnrolled
  | marked
deriving DecidableEq, Repr

/-- The record inserted when the day-keyed upsert finds no match
(`setDefaultsOnInsert`). -/
def freshDayRecord (c : CourseId) (stu : StudentId) (today : Rat)
    (newStatus : AttStatus) : AttendanceRecord :=
  { course := c, student := stu, semester := none, session := none,
    sessionType := none, status := newStatus, date := today,
    faceVerified := false, gpsLocation := none }

/-- `Attendance.findOneAndUpdate({course, student, date: {$gte: today}},
{status, date: today}, {upsert: true, ...})`: update the first record of
the student in the course dated at or after `today`, or insert a fresh
one. -/
def upsertDayRecord (c : CourseId) (stu : StudentId) (today : Rat)
    (newStatus : AttStatus) : List AttendanceRecord → List AttendanceRecord
  | [] => [freshDayRecord c stu today newStatus]
  | a :: rest =>
    if a.course = c ∧ a.student = stu ∧ today ≤ a.date then
      { a with status := newStatus, date := today } :: rest
    else a :: upsertDayRecord c stu today newStatus rest

/-- `POST /:courseId/mark/:studentId`: resolve and authorize the course,
reject a student not in the course's embedded `students` roster, then
perform the day-keyed upsert (`status || "Present"`).  No session is
consulted anywhere on this path. -/
def markManualSingle (courseId : CourseId) (studentId : StudentId)
    (teacherId : UserId) (status? : Option AttStatus) (today : Rat)
    (st : State) : State × MarkResult :=
  match st.courses.find? (fun c => c.id = courseId) with
  | none => (st, .courseNotFound)
  | some course =>
    if course.teacher ≠ teacherId then (st, .notAuthorized)
    else if ¬ course.students.contains studentId then (st, .notEnrolled)
    else
      ({ st with attendance :=
          upsertDayRecord courseId studentId today (status?.getD .Present) st.attendance },
       .marked)

/-- `POST /:courseId/mark` (bulk): resolve and authorize the course,
then for each submitted record skip students not in the course's
embedded roster (`continue`) and upsert the rest day-keyed. -/
def markManualBulk (courseId : CourseId) (teacherId : UserId)
    (records : List (StudentId × Option AttStatus)) (today : Rat)
    (st : State) : State × MarkResult :=
  match st.courses.find? (fun c => c.id = courseId) with
  | none => (st, .courseNotFound)
  | some course =>
    if course.teacher ≠ teacherId then (st, .notAuthorized)
    else
      let newAtt := records.foldl
        (fun acc r =>
          if course.students.contains r.1 then
            upsertDayRecord courseId r.1 today (r.2.getD .Present) acc
          else acc)
        st.attendance
      ({ st with attendance := newAtt }, .marked)

/-! ### Concrete fixtures used to evaluate the model at specific inputs -/

/-- A lecture-hall geofence: radius 60 m, lecturer accuracy 50 m (the
values of the spec's boundary example). -/
def sampleGeo : GeoLoc := { lat := 9, lng := 4, radius := 60, accuracy := 50 }

/-- An active QR session on course 7. -/
def sampleSession : Session :=
  { id := 2, course := 7, teacher := 3, semester := 1, status := .active,
    typ := .QR, token := 100, validTokens := [⟨200, 30⟩], expiresAt := 1000,
    createdAt := 0, location := some sampleGeo, cancelledAt := none,
    cancelReason := none }

/-- Course 7, owned by teacher 3, with students 21 and 22 enrolled. -/
def sampleCourse : Course := { id := 7, teacher := 3, semester := 1, students := [21, 22] }

/-- A store holding the active QR session, the matching enrollments, and
no attendance yet. -/
def sampleState : State :=
  { sessions := [sampleSession],
    attendance := [],
    enrollments := [⟨7, 21, 1⟩, ⟨7, 22, 1⟩],
    courses := [sampleCourse] }

/-- A Present record of student 21 for the sample session. -/
def presentRecord21 : AttendanceRecord :=
  { course := 7, student := 21, semester := some 1, session := some 2,
    sessionType := some .QR, status := .Present, date := 0,
    faceVerified := true, gpsLocation := none }

/-- The sample store after student 21 scanned successfully. -/
def markedState : State := { sampleState with attendance := [presentRecord21] }

/-- A session that was cancelled (as the cancel route leaves it). -/
def cancelledSession : Session :=
  { sampleSession with id := 1, status := .cancelled, cancelledAt := some 40 }

/-- The store holding only the cancelled session: its attendance was
purged by the cancel route.  The teacher end route looks a session up by
id and ownership only, so `endSession` is reachable on this state. -/
def cancelledState : State := { sampleState with sessions := [cancelledSession] }

/-- The store where the only session of course 7 is already expired. -/
def expiredOnlyState : State :=
  { sampleState with sessions := [{ sampleSession with status := .expired }] }

/-- A constant distance oracle: models a student fix at a fixed
haversine distance from the anchor. -/
def flatDist (d : Rat) : Rat → Rat → Rat → Rat → Rat := fun _ _ _ _ => d

/-- A student fix with good (10 m) reported accuracy. -/
def fixAcc10 : LocFix := { lat := some 1, lng := some 1, accuracy := some 10 }

end UniTrack

namespace UniTrack

/-- A QR session whose location anchor is the spec's boundary anchor
(0,0): the scan route's truthiness guard `session.location?.lat &&
session.location?.lng` then skips the geofence entirely. -/
def zeroAnchorSession : Session :=
  { sampleSession with location := some { lat := 0, lng := 0, radius := 60, accuracy := 50 } }

/-- The sample store holding the zero-anchor session. -/
def zeroAnchorState : State := { sampleState with sessions := [zeroAnchorSession] }

/-- A session transformer that preserves identity and course and either
leaves a session unchanged or marks it Expired — the shape of every
per-session update performed while force-closing sessions. -/
def StatusStep (f : Session → Session) : Prop :=
  ∀ t, (f t).id = t.id ∧ (f t).course = t.course
    ∧ (f t = t ∨ (f t).status = .expired)

/-- The session document the sample create request persists. -/
def createdSample : Session :=
  newSessionDoc 7 3 1 .MANUAL 777 (100 + min (max (numOr none 10) 1) 180 * 60 * 1000)
    100 6 none

/-! ## Helper lemmas -/

/-- `find?` by session id commutes with the expiry update map: the expiry
map rewrites exactly the sessions whose id matches. -/
theorem find?_id_map_expireIf (sid : SessionId) (now : Rat) (l : List Session) :
    (l.map (expireIf sid now)).find? (fun t => t.id = sid)
      = (l.find? (fun t => t.id = sid)).map
          (fun t => { t with status := SessionStatus.expired, expiresAt := now }) := by
  induction l with
  | nil => rfl
  | cons a l ih =>
    by_cases h : a.id = sid
    · simp [List.find?_cons, expireIf, h]
    · simp [List.find?_cons, expireIf, h, ih]

/-! ## Claims -/

/-- Claim C10: the active-session lookup only ever reports a session of
the requested course that is persisted as Active and whose deadline is
strictly in the future; a session whose deadline has passed is never
reported even while its status is still Active. -/
theorem getActiveSession_requires_future_deadline
    (c : CourseId) (now : Rat) (st : State) (s : Session)
    (h : getActiveSession c now st = some s) :
    s.course = c ∧ s.status = .active ∧ now < s.expiresAt := by
  have h2 := List.find?_some h
  simpa using h2

/-- Witness for C10 at a concrete store. -/
theorem getActiveSession_requires_future_deadline_witness :
    sampleSession.course = 7 ∧ sampleSession.status = .active
      ∧ (0 : Rat) < sampleSession.expiresAt :=
  getActiveSession_requires_future_deadline 7 0 sampleState sampleSession (by decide)

/-- Claim C2: `endSession` is idempotent — a second close of the same
session is a no-op on the whole store (sessions and attendance records
alike), because the close re-reads the session and returns immediately
once it is Expired, so the repeated reconciliation neither runs nor
creates duplicate rows. -/
theorem endSession_idempotent (sid : SessionId) (now1 now2 : Rat) (st : State) :
    endSession sid now2 (endSession sid now1 st) = endSession sid now1 st := by
  rcases hf : st.sessions.find? (fun t => t.id = sid) with _ | fresh
  · simp [endSession, hf]
  · by_cases hst : fresh.status = .expired
    · simp [endSession, hf, hst]
    · have h1 : endSession sid now1 st
        = markAbsenteesForSession { fresh with status := .expired, expiresAt := now1 }
            { st with sessions := st.sessions.map (expireIf sid now1) } := by
        simp [endSession, hf, hst]
      rw [h1]
      have hfind2 : (markAbsenteesForSession { fresh with status := .expired, expiresAt := now1 }
            { st with sessions := st.sessions.map (expireIf sid now1) }).sessions.find?
            (fun t => t.id = sid)
          = some { fresh with status := .expired, expiresAt := now1 } := by
        show (st.sessions.map (expireIf sid now1)).find? (fun t => t.id = sid) = _
        rw [find?_id_map_expireIf, hf]
        rfl
      simp [endSession, hfind2]

/-- Claim C5 (violation): `endSession` guards only against the Expired
status, not against every non-Active status; invoking the close
transition on a Cancelled session — reachable through the teacher end
route, which checks only existence and ownership — re-marks the session
Expired and back-fills Absent records for the enrolled students, even
though the cancel route had just purged all attendance for it. -/
theorem endSession_on_cancelled_mutates :
    cancelledState.sessions.map (fun s => s.status) = [.cancelled]
    ∧ cancelledState.attendance = []
    ∧ (endSession 1 60 cancelledState).sessions.map (fun s => s.status) = [.expired]
    ∧ (endSession 1 60 cancelledState).attendance.map (fun a => (a.student, a.status))
        = [(21, .Absent), (22, .Absent)] := by
  decide

/-- Claim C6: `cancelSession` is a no-op on a session that is not
Active; on an Active session it marks the session Cancelled and deletes
every attendance record of the session, leaving zero records for it no
matter how many Present records had accrued. -/
theorem cancelSession_only_active_and_purges
    (st : State) (sid : SessionId) (now : Rat) (reason : Option Nat) (fresh : Session)
    (hfind : st.sessions.find? (fun t => t.id = sid) = some fresh) :
    (fresh.status ≠ .active → cancelSession sid now reason st = st)
    ∧ (fresh.status = .active →
        (cancelSession sid now reason st).attendance.filter
            (fun a => a.session = some sid) = []
        ∧ ∀ t ∈ (cancelSession sid now reason st).sessions,
            t.id = sid → t.status = .cancelled) := by
  constructor
  · intro hna
    simp [cancelSession, hfind, hna]
  · intro ha
    have hne : ¬ fresh.status ≠ .active := by simp [ha]
    have hc : cancelSession sid now reason st
        = { st with sessions := st.sessions.map (cancelIf sid now reason),
                    attendance := st.attendance.filter (fun a => ¬ a.session = some sid) } := by
      simp [cancelSession, hfind, hne]
    constructor
    · rw [hc]
      rw [List.filter_eq_nil_iff]
      intro a hmem
      have := List.of_mem_filter hmem
      simpa using this
    · intro t ht hid
      rw [hc] at ht
      rcases List.mem_map.mp ht with ⟨t0, _, rfl⟩
      by_cases h0 : t0.id = sid
      · simp [cancelIf, h0]
      · exfalso
        apply h0
        simp [cancelIf, h0] at hid

/-- Witness for C6: cancelling the active sample session with a Present
record purges the record and leaves the session Cancelled. -/
theorem cancelSession_only_active_and_purges_witness :
    (cancelSession 2 60 none markedState).attendance.filter
        (fun a => a.session = some 2) = []
    ∧ ∀ t ∈ (cancelSession 2 60 none markedState).sessions,
        t.id = 2 → t.status = .cancelled :=
  (cancelSession_only_active_and_purges markedState 2 60 none sampleSession
    (by decide)).2 (by decide)

/-- Every scan either records attendance or leaves the store untouched:
case analysis over all branches of the scan route. -/
theorem scanToken_recorded_or_unchanged (distFn : Rat → Rat → Rat → Rat → Rat)
    (token : Nat) (studentId : StudentId) (loc? : Option LocFix) (now : Rat)
    (newTok : Nat) (st : State) :
    (scanToken distFn token studentId loc? now newTok st).2 = .recorded
    ∨ (scanToken distFn token studentId loc? now newTok st).1 = st := by
  rcases hf : st.sessions.find? (scanMatch token now) with _ | s
  · right
    simp [scanToken, hf]
  · by_cases hq : s.typ = .QR
    · by_cases he : s.expiresAt < now
      · right
        simp [scanToken, hf, hq, he]
      · rcases hv : validateStudentForSession distFn studentId s loc? st with _ | e
        · by_cases hm : ∃ x ∈ st.attendance, x.session = some s.id ∧ x.student = studentId
          · right
            simp [scanToken, hf, hq, he, hv, hm]
          · left
            simp [scanToken, hf, hq, he, hv, hm]
        · right
          simp [scanToken, hf, hq, he, hv]
    · right
      simp [scanToken, hf, hq]

/-- Claim C9: every rejected scan is atomic — when the scan route
answers anything but the 201 recorded outcome (unknown or expired
credential, wrong session type, deadline passed, enrollment or GPS or
geofence rejection, or the 409 already-marked answer), the store is
unchanged: no attendance record is created and the session's token
state is untouched. -/
theorem scan_rejection_atomic (distFn : Rat → Rat → Rat → Rat → Rat)
    (token : Nat) (studentId : StudentId) (loc? : Option LocFix) (now : Rat)
    (newTok : Nat) (st : State)
    (h : (scanToken distFn token studentId loc? now newTok st).2 ≠ .recorded) :
    (scanToken distFn token studentId loc? now newTok st).1 = st :=
  (scanToken_recorded_or_unchanged distFn token studentId loc? now newTok st).resolve_left h

/-- Witness for C9: a scan with an unknown token is rejected and leaves
the concrete store unchanged. -/
theorem scan_rejection_atomic_witness :
    (scanToken (flatDist 111) 555 21 (some fixAcc10) 5 999 sampleState).1 = sampleState :=
  scan_rejection_atomic (flatDist 111) 555 21 (some fixAcc10) 5 999 sampleState (by decide)

/-- When a valid credential of an active QR session is scanned by a
student who already holds a record for the session, the scan route
answers the already-marked outcome and leaves the store unchanged. -/
theorem scanToken_already_of (distFn : Rat → Rat → Rat → Rat → Rat)
    (token : Nat) (studentId : StudentId) (loc? : Option LocFix) (now : Rat)
    (newTok : Nat) (st : State) (s : Session)
    (hf : st.sessions.find? (scanMatch token now) = some s)
    (hq : s.typ = .QR)
    (he : ¬ s.expiresAt < now)
    (hv : validateStudentForSession distFn studentId s loc? st = none)
    (hm : st.attendance.any (fun a => a.session = some s.id ∧ a.student = studentId) = true) :
    scanToken distFn token studentId loc? now newTok st = (st, .already) := by
  simp only [List.any_eq_true, decide_eq_true_eq] at hm
  simp [scanToken, hf, hq, he, hv, hm]

/-- The geofence of the sample session admits a fix at 10 m with good
accuracy: validation passes on the marked sample store. -/
theorem validate_passes_on_marked :
    validateStudentForSession (flatDist 10) 21 sampleSession (some fixAcc10) markedState
      = none := by
  norm_num [validateStudentForSession, sampleSession, sampleGeo, markedState,
    sampleState, flatDist, fixAcc10]

/-- Counterexample to claim C7 as stated: re-scanning after a record
exists does not return a success — the route answers the 409 Conflict
status (an HTTP error class code), though with the distinguished
already-marked outcome. -/
theorem scan_already_marked_not_success :
    (scanToken (flatDist 10) 100 21 (some fixAcc10) 5 999 markedState).2 = .already
    ∧ ¬ isHttpSuccess (httpStatusOf
        (scanToken (flatDist 10) 100 21 (some fixAcc10) 5 999 markedState).2) := by
  have hres : scanToken (flatDist 10) 100 21 (some fixAcc10) 5 999 markedState
      = (markedState, .already) :=
    scanToken_already_of (flatDist 10) 100 21 (some fixAcc10) 5 999 markedState
      sampleSession (by decide) (by decide) (by decide) validate_passes_on_marked (by decide)
  rw [hres]
  decide

/-- Claim C7 (amended): when a student scans a valid credential of a
matched active session and a record already exists for that (session,
student) pair, the route answers the distinguished already-marked
outcome with HTTP status 409 — rather than a success status — and the
scan is a safe no-op: the store, including the existing record and the
session's token state, is unchanged. -/
theorem scan_already_marked_distinguished_no_op
    (distFn : Rat → Rat → Rat → Rat → Rat) (token : Nat) (studentId : StudentId)
    (loc? : Option LocFix) (now : Rat) (newTok : Nat) (st : State) (s : Session)
    (hf : st.sessions.find? (scanMatch token now) = some s)
    (hq : s.typ = .QR)
    (he : ¬ s.expiresAt < now)
    (hv : validateStudentForSession distFn studentId s loc? st = none)
    (hm : st.attendance.any (fun a => a.session = some s.id ∧ a.student = studentId) = true) :
    scanToken distFn token studentId loc? now newTok st = (st, .already)
    ∧ httpStatusOf (scanToken distFn token studentId loc? now newTok st).2 = 409 := by
  have hres := scanToken_already_of distFn token studentId loc? now newTok st s
    hf hq he hv hm
  refine ⟨hres, ?_⟩
  rw [hres]
  rfl

/-- Witness for C7 (amended) at the concrete marked store. -/
theorem scan_already_marked_distinguished_no_op_witness :
    scanToken (flatDist 10) 100 21 (some fixAcc10) 5 999 markedState = (markedState, .already)
    ∧ httpStatusOf (scanToken (flatDist 10) 100 21 (some fixAcc10) 5 999 markedState).2 = 409 :=
  scan_already_marked_distinguished_no_op (flatDist 10) 100 21 (some fixAcc10) 5 999
    markedState sampleSession (by decide) (by decide) (by decide)
    validate_passes_on_marked (by decide)


/-- Counterexample to claim C4 as stated: for a session whose location
anchor is (0,0) — the spec's own boundary anchor, with radius 60 m and
session accuracy 50 m — the geofence is skipped entirely by the JS
truthiness guard, and a fix at distance 111 m with accuracy 10 m (and
even one with accuracy 400 m) is admitted rather than rejected. -/
theorem geofence_zero_anchor_admits :
    zeroAnchorSession.location = some { lat := 0, lng := 0, radius := 60, accuracy := 50 }
    ∧ validateStudentForSession (flatDist 111) 21 zeroAnchorSession (some fixAcc10)
        zeroAnchorState = none
    ∧ validateStudentForSession (flatDist 111) 21 zeroAnchorSession (some ⟨some 1, some 1, some 400⟩)
        zeroAnchorState = none := by
  decide

/-- For a session anchor with both coordinates nonzero, admission is
exactly distance within radius plus the larger accuracy (a zero session
accuracy defaulting to 50 by JS truthiness), minus the two anti-spoof
rejections. -/
theorem geofence_iff_aux (distFn : Rat → Rat → Rat → Rat → Rat) (studentId : StudentId)
    (st : State) (s : Session) (g : GeoLoc) (la ln acc : Rat)
    (hg : s.location = some g) (hlat : g.lat ≠ 0) (hlng : g.lng ≠ 0)
    (henr : st.enrollments.any (fun e => e.course = s.course ∧ e.student = studentId) = true) :
    validateStudentForSession distFn studentId s
        (some { lat := some la, lng := some ln, accuracy := some acc }) st = none
      ↔ (distFn la ln g.lat g.lng
            ≤ g.radius + max acc (if g.accuracy = 0 then 50 else g.accuracy)
          ∧ acc ≤ 300
          ∧ ¬ (distFn la ln g.lat g.lng < 5 ∧ acc > 30)) := by
  have henr2 : ∃ e ∈ st.enrollments, e.course = s.course ∧ e.student = studentId := by
    simpa using henr
  by_cases hga : g.accuracy = 0
  · unfold validateStudentForSession
    simp only [hg, hlat, hlng, hga]
    simp [henr2]
    split_ifs with h1 h2 h3
    · constructor
      · intro hcon
        exact hcon.elim
      · rintro ⟨-, hb, -⟩
        exact absurd h1 (not_lt.mpr hb)
    · constructor
      · intro hcon
        exact hcon.elim
      · rintro ⟨-, -, hc⟩
        exact absurd (hc h2.1) (not_le.mpr h2.2)
    · constructor
      · intro hcon
        exact hcon.elim
      · rintro ⟨ha, -, -⟩
        exact absurd ha (not_le.mpr h3)
    · constructor
      · intro _
        exact ⟨not_lt.mp h3, not_lt.mp h1,
          fun hd => not_lt.mp (fun hacc => h2 ⟨hd, hacc⟩)⟩
      · intro _
        rfl
  · unfold validateStudentForSession
    simp only [hg, hlat, hlng]
    simp [henr2, hga]
    split_ifs with h1 h2 h3
    · constructor
      · intro hcon
        exact hcon.elim
      · rintro ⟨-, hb, -⟩
        exact absurd h1 (not_lt.mpr hb)
    · constructor
      · intro hcon
        exact hcon.elim
      · rintro ⟨-, -, hc⟩
        exact absurd (hc h2.1) (not_le.mpr h2.2)
    · constructor
      · intro hcon
        exact hcon.elim
      · rintro ⟨ha, -, -⟩
        exact absurd ha (not_le.mpr h3)
    · constructor
      · intro _
        exact ⟨not_lt.mp h3, not_lt.mp h1,
          fun hd => not_lt.mp (fun hacc => h2 ⟨hd, hacc⟩)⟩
      · intro _
        rfl


/-- Claim C4 (amended): for a scan against a session whose location
anchor has both coordinates nonzero, an enrolled student's fix is
admitted by `validateStudentForSession` if and only if the computed
distance is within `radius + max(student accuracy, session accuracy)`
(a zero session accuracy defaulting to 50 m), except that the fix is
rejected regardless of distance when the reported accuracy exceeds
300 m or when the distance is under 5 m while the accuracy exceeds
30 m; in particular, with radius 60 m and session accuracy 50 m at a
nonzero anchor, a fix at distance 109 m with accuracy 10 m is admitted
and a fix at distance 111 m with accuracy 10 m is rejected.  When the
anchor has lat = 0 or lng = 0 — including the spec's boundary anchor
(0,0) — the truthiness guard skips the geofence and every enrolled fix
is admitted regardless of distance and accuracy. -/
theorem geofence_admission_decision
    (distFn : Rat → Rat → Rat → Rat → Rat) (studentId : StudentId) (st : State)
    (s : Session) (g : GeoLoc) (la ln acc : Rat) (loc? : Option LocFix)
    (hg : s.location = some g)
    (henr : st.enrollments.any (fun e => e.course = s.course ∧ e.student = studentId) = true) :
    ((g.lat ≠ 0 ∧ g.lng ≠ 0) →
      (validateStudentForSession distFn studentId s
          (some { lat := some la, lng := some ln, accuracy := some acc }) st = none
        ↔ (distFn la ln g.lat g.lng
              ≤ g.radius + max acc (if g.accuracy = 0 then 50 else g.accuracy)
            ∧ acc ≤ 300
            ∧ ¬ (distFn la ln g.lat g.lng < 5 ∧ acc > 30))))
    ∧ ((g.lat = 0 ∨ g.lng = 0) →
        validateStudentForSession distFn studentId s loc? st = none)
    ∧ validateStudentForSession (flatDist 109) 21 sampleSession (some fixAcc10)
        sampleState = none
    ∧ validateStudentForSession (flatDist 111) 21 sampleSession (some fixAcc10)
        sampleState = some .outsideZone := by
  refine ⟨?_, ?_, ?_, ?_⟩
  · rintro ⟨hlat, hlng⟩
    exact geofence_iff_aux distFn studentId st s g la ln acc hg hlat hlng henr
  · intro hz
    have henr2 : ∃ e ∈ st.enrollments, e.course = s.course ∧ e.student = studentId := by
      simpa using henr
    rcases hz with h0 | h0 <;>
      simp [validateStudentForSession, hg, h0, henr2]
  · norm_num [validateStudentForSession, sampleSession, sampleGeo, sampleState,
      flatDist, fixAcc10]
  · norm_num [validateStudentForSession, sampleSession, sampleGeo, sampleState,
      flatDist, fixAcc10]

/-- Witness for C4 (amended): the characterization instantiated at the
sample geofence (nonzero anchor) and a fix with accuracy 10 m. -/
theorem geofence_admission_decision_witness :
    ((sampleGeo.lat ≠ 0 ∧ sampleGeo.lng ≠ 0) →
      (validateStudentForSession (flatDist 109) 21 sampleSession
          (some { lat := some 1, lng := some 1, accuracy := some 10 }) sampleState = none
        ↔ (flatDist 109 1 1 sampleGeo.lat sampleGeo.lng
              ≤ sampleGeo.radius
                + max 10 (if sampleGeo.accuracy = 0 then 50 else sampleGeo.accuracy)
            ∧ (10 : Rat) ≤ 300
            ∧ ¬ (flatDist 109 1 1 sampleGeo.lat sampleGeo.lng < 5 ∧ (10 : Rat) > 30))))
    ∧ ((sampleGeo.lat = 0 ∨ sampleGeo.lng = 0) →
        validateStudentForSession (flatDist 109) 21 sampleSession (some fixAcc10)
          sampleState = none)
    ∧ validateStudentForSession (flatDist 109) 21 sampleSession (some fixAcc10)
        sampleState = none
    ∧ validateStudentForSession (flatDist 111) 21 sampleSession (some fixAcc10)
        sampleState = some .outsideZone :=
  geofence_admission_decision (flatDist 109) 21 sampleState sampleSession sampleGeo
    1 1 10 (some fixAcc10) (by rfl) (by decide)

/-- The day-keyed upsert of the manual-marking routes never touches the
records of a different student. -/
theorem filter_student_upsertDayRecord (c : CourseId) (stu stu2 : StudentId)
    (today : Rat) (b : AttStatus) (l : List AttendanceRecord) (hne : stu ≠ stu2) :
    (upsertDayRecord c stu2 today b l).filter (fun a => a.student = stu)
      = l.filter (fun a => a.student = stu) := by
  induction l with
  | nil => simp [upsertDayRecord, freshDayRecord, Ne.symm hne]
  | cons a rest ih =>
    by_cases h : a.course = c ∧ a.student = stu2 ∧ today ≤ a.date
    · have ha : ¬ a.student = stu := by
        rw [h.2.1]
        exact Ne.symm hne
      simp [upsertDayRecord, h, ha, List.filter_cons, Ne.symm hne]
    · simp only [upsertDayRecord, if_neg h]
      by_cases ha : a.student = stu
      · simp [List.filter_cons, ha, ih]
      · simp [List.filter_cons, ha, ih]

/-- The bulk manual-mark fold never touches the records of a student who
is not in the course roster, because unenrolled entries are skipped and
upserts target enrolled students only. -/
theorem filter_student_bulkFold (course : Course) (courseId : CourseId) (today : Rat)
    (records : List (StudentId × Option AttStatus)) (stu : StudentId)
    (hstu : ¬ course.students.contains stu) (acc : List AttendanceRecord) :
    (records.foldl
        (fun acc r =>
          if course.students.contains r.1 then
            upsertDayRecord courseId r.1 today (r.2.getD .Present) acc
          else acc)
        acc).filter (fun a => a.student = stu)
      = acc.filter (fun a => a.student = stu) := by
  induction records generalizing acc with
  | nil => rfl
  | cons r rest ih =>
    simp only [List.foldl_cons]
    by_cases h : course.students.contains r.1
    · rw [if_pos h, ih]
      apply filter_student_upsertDayRecord
      intro he
      rw [he] at hstu
      exact hstu h
    · rw [if_neg h, ih]

/-- Counterexample to claim C8 as stated: the manual-mark route performs
no session check — on a store whose only session for the course is
Expired, a single manual mark for an enrolled student still succeeds and
writes a (session-free, day-keyed) record. -/
theorem manual_mark_no_session_check :
    (∀ s ∈ expiredOnlyState.sessions, s.status ≠ .active)
    ∧ (markManualSingle 7 21 3 none 0 expiredOnlyState).2 = .marked
    ∧ (markManualSingle 7 21 3 none 0 expiredOnlyState).1.attendance
        = [freshDayRecord 7 21 0 .Present] := by
  decide

/-- Claim C8 (amended): manual marking (single and bulk) rejects —
respectively skips — students not in the course's embedded roster, so
no record is ever upserted for an unenrolled student; but it consults
no session at all: both operations are invariant under arbitrary
changes to the session store, and the upsert is keyed by (course,
student, day) with no session reference and no check that any session
is Active. -/
theorem manual_mark_enrollment_only
    (courseId : CourseId) (studentId : StudentId) (teacherId : UserId)
    (status? : Option AttStatus) (today : Rat) (st : State) (course : Course)
    (records : List (StudentId × Option AttStatus)) (l : List Session)
    (hc : st.courses.find? (fun c => c.id = courseId) = some course)
    (ht : course.teacher = teacherId)
    (hne : ¬ course.students.contains studentId) :
    markManualSingle courseId studentId teacherId status? today st = (st, .notEnrolled)
    ∧ (markManualBulk courseId teacherId records today st).1.attendance.filter
          (fun a => a.student = studentId)
        = st.attendance.filter (fun a => a.student = studentId)
    ∧ markManualSingle courseId studentId teacherId status? today { st with sessions := l }
        = ({ (markManualSingle courseId studentId teacherId status? today st).1
              with sessions := l },
           (markManualSingle courseId studentId teacherId status? today st).2)
    ∧ markManualBulk courseId teacherId records today { st with sessions := l }
        = ({ (markManualBulk courseId teacherId records today st).1 with sessions := l },
           (markManualBulk courseId teacherId records today st).2) := by
  have hteq : ¬ course.teacher ≠ teacherId := by simp [ht]
  have hne2 : studentId ∉ course.students := by simpa using hne
  refine ⟨?_, ?_, ?_, ?_⟩
  · simp [markManualSingle, hc, hteq, hne2]
  · simp only [markManualBulk, hc]
    rw [if_neg hteq]
    exact filter_student_bulkFold course courseId today records studentId hne st.attendance
  · rcases h2 : st.courses.find? (fun c => c.id = courseId) with _ | c2
    · simp [markManualSingle, h2]
    · by_cases h3 : c2.teacher ≠ teacherId
      · simp [markManualSingle, h2, h3]
      · by_cases h4 : studentId ∈ c2.students
        · simp [markManualSingle, h2, h3, h4]
        · simp [markManualSingle, h2, h3, h4]
  · rcases h2 : st.courses.find? (fun c => c.id = courseId) with _ | c2
    · simp [markManualBulk, h2]
    · by_cases h3 : c2.teacher ≠ teacherId
      · simp [markManualBulk, h2, h3]
      · simp [markManualBulk, h2, h3]

/-- Witness for C8 (amended): student 99 is not enrolled in the sample
course — a single mark for them is rejected, and a bulk mark for
student 21 leaves student 99 without any record. -/
theorem manual_mark_enrollment_only_witness :
    markManualSingle 7 99 3 none 0 sampleState = (sampleState, .notEnrolled)
    ∧ (markManualBulk 7 3 [(21, none)] 0 sampleState).1.attendance.filter
          (fun a => a.student = 99)
        = sampleState.attendance.filter (fun a => a.student = 99) :=
  ⟨(manual_mark_enrollment_only 7 99 3 none 0 sampleState sampleCourse [(21, none)] []
      (by decide) (by decide) (by decide)).1,
   (manual_mark_enrollment_only 7 99 3 none 0 sampleState sampleCourse [(21, none)] []
      (by decide) (by decide) (by decide)).2.1⟩


/-- Counting elements whose image under a function equals a value is the
same before and after mapping. -/
theorem length_filter_map_eq {α β : Type} [DecidableEq β] (f : α → β) (l : List α) (b : β) :
    (l.filter (fun a => f a = b)).length = ((l.map f).filter (fun x => x = b)).length := by
  induction l with
  | nil => rfl
  | cons a rest ih =>
    by_cases h : f a = b <;> simp [List.filter_cons, h, ih]

/-- In a duplicate-free list, filtering for one value keeps exactly one
element when it is present and none otherwise. -/
theorem length_filter_singleton_of_nodup {α : Type} [DecidableEq α] {l : List α}
    (h : l.Nodup) (b : α) :
    (l.filter (fun x => x = b)).length = if b ∈ l then 1 else 0 := by
  induction l with
  | nil => rfl
  | cons a rest ih =>
    rcases List.nodup_cons.mp h with ⟨hnotin, hrest⟩
    by_cases hab : a = b
    · subst hab
      simp [List.filter_cons, ih hrest, hnotin]
    · simp [List.filter_cons, hab, ih hrest, Ne.symm hab]

/-- Counting the records of one (session, student) pair equals counting
the student among the students recorded for the session. -/
theorem length_filter_pair (l : List AttendanceRecord) (sid : SessionId) (stu : StudentId) :
    (l.filter (fun a => a.session = some sid ∧ a.student = stu)).length
      = (((l.filter (fun a => a.session = some sid)).map (fun a => a.student)).filter
          (fun x => x = stu)).length := by
  induction l with
  | nil => rfl
  | cons a rest ih =>
    simp only [Bool.decide_and] at ih
    by_cases h1 : a.session = some sid
    · by_cases h2 : a.student = stu
      · simp [List.filter_cons, h1, h2, ih]
      · simp [List.filter_cons, h1, h2, ih]
    · simp [List.filter_cons, h1, ih]

/-- When every record of a list belongs to the session, filtering for the
(session, student) pair is filtering for the student. -/
theorem filter_pair_of_all_session (sid : SessionId) (stu : StudentId)
    (l : List AttendanceRecord) (h : ∀ a ∈ l, a.session = some sid) :
    l.filter (fun a => a.session = some sid ∧ a.student = stu)
      = l.filter (fun a => a.student = stu) := by
  induction l with
  | nil => rfl
  | cons a rest ih =>
    have ha := h a (List.mem_cons_self a rest)
    have hrest := ih (fun b hb => h b (List.mem_cons_of_mem a hb))
    simp only [Bool.decide_and] at hrest
    by_cases h2 : a.student = stu <;> simp [List.filter_cons, ha, h2, hrest]

/-- The students of the built absentee records are exactly the enrolled
students not in the marked set. -/
theorem map_student_absentees (s : Session) (enr : List Enrollment) (marked : List StudentId) :
    (((enr.filter (fun e => ¬ marked.contains e.student)).map (absentRecord s)).map
        (fun a => a.student))
      = (enr.map (fun e => e.student)).filter (fun stu => ¬ marked.contains stu) := by
  induction enr with
  | nil => rfl
  | cons e rest ih =>
    simp only [List.contains, List.elem_eq_mem, decide_eq_true_eq, decide_not,
      List.map_map] at ih ⊢
    by_cases h : e.student ∈ marked
    · simp [List.filter_cons, h, ih, absentRecord]
    · simp [List.filter_cons, h, ih, absentRecord]


/-- Every built absentee record is an Absent record of the closed
session. -/
theorem absentee_fields (s : Session) (st : State) :
    ∀ a ∈ absenteeRecords s st, a.status = .Absent ∧ a.session = some s.id := by
  intro a ha
  simp only [absenteeRecords] at ha
  rcases List.mem_map.mp ha with ⟨e, -, rfl⟩
  exact ⟨rfl, rfl⟩

/-- Claim C1: closing an Active session back-fills an Absent record for
exactly the enrolled students without a record (the set difference
enrolled − recorded), never overwriting an existing record; afterwards
every student enrolled in the session's course has exactly one record
for the session, and every record of the session has status Present or
Absent.  The hypotheses state the store invariants the unique index on
(course, semester, student, session) and the unique Enrollment triple
enforce in Mongo: no duplicate record per (session, student) and no
duplicate roster entry. -/
theorem close_reconciliation_complete
    (st : State) (s : Session) (now : Rat)
    (hfind : st.sessions.find? (fun t => t.id = s.id) = some s)
    (hact : s.status = .active)
    (hrec : (studentsRecorded st s.id).Nodup)
    (hps : ∀ a ∈ st.attendance, a.session = some s.id →
      a.status = .Present ∨ a.status = .Absent)
    (hroster : (rosterOf st s.course).Nodup) :
    ∃ newRecs,
      (endSession s.id now st).attendance = st.attendance ++ newRecs
      ∧ newRecs.map (fun a => a.student)
          = (rosterOf st s.course).filter
              (fun stu => ¬ (studentsRecorded st s.id).contains stu)
      ∧ (∀ a ∈ newRecs, a.status = .Absent ∧ a.session = some s.id)
      ∧ (∀ stu ∈ rosterOf st s.course,
          (recordsFor (endSession s.id now st) s.id stu).length = 1)
      ∧ (∀ a ∈ (endSession s.id now st).attendance, a.session = some s.id →
          a.status = .Present ∨ a.status = .Absent) := by
  have hne : ¬ s.status = .expired := by
    rw [hact]
    intro hcon
    cases hcon
  have hatt : (endSession s.id now st).attendance
      = st.attendance ++ absenteeRecords s st := by
    simp [endSession, hfind, hne, markAbsenteesForSession]
    rfl
  have hmap : (absenteeRecords s st).map (fun a => a.student)
      = (rosterOf st s.course).filter
          (fun stu => ¬ (studentsRecorded st s.id).contains stu) :=
    map_student_absentees s (enrollmentsOf st s.course) (studentsRecorded st s.id)
  refine ⟨absenteeRecords s st, hatt, hmap, absentee_fields s st, ?_, ?_⟩
  · intro stu hstu
    have hlen : (recordsFor (endSession s.id now st) s.id stu).length
        = (st.attendance.filter
            (fun a => a.session = some s.id ∧ a.student = stu)).length
          + ((absenteeRecords s st).filter
              (fun a => a.session = some s.id ∧ a.student = stu)).length := by
      unfold recordsFor
      rw [hatt, List.filter_append, List.length_append]
    have hold : (st.attendance.filter
          (fun a => a.session = some s.id ∧ a.student = stu)).length
        = if stu ∈ studentsRecorded st s.id then 1 else 0 := by
      rw [length_filter_pair]
      exact length_filter_singleton_of_nodup hrec stu
    have hnew : ((absenteeRecords s st).filter
          (fun a => a.session = some s.id ∧ a.student = stu)).length
        = if stu ∈ (rosterOf st s.course).filter
              (fun x => ¬ (studentsRecorded st s.id).contains x) then 1 else 0 := by
      rw [filter_pair_of_all_session s.id stu _ (fun a ha => (absentee_fields s st a ha).2)]
      rw [length_filter_map_eq (fun a => a.student) (absenteeRecords s st) stu]
      rw [hmap]
      exact length_filter_singleton_of_nodup (hroster.filter _) stu
    rw [hlen, hold, hnew]
    by_cases hm : stu ∈ studentsRecorded st s.id
    · have hnot : stu ∉ (rosterOf st s.course).filter
          (fun x => ¬ (studentsRecorded st s.id).contains x) := by
        intro hcon
        have h2 := (List.mem_filter.mp hcon).2
        simp at h2
        exact h2 hm
      rw [if_pos hm, if_neg hnot]
    · have hin : stu ∈ (rosterOf st s.course).filter
          (fun x => ¬ (studentsRecorded st s.id).contains x) :=
        List.mem_filter.mpr ⟨hstu, by simp [hm]⟩
      rw [if_neg hm, if_pos hin]
  · intro a ha hsess
    rw [hatt] at ha
    rcases List.mem_append.mp ha with h | h
    · exact hps a h hsess
    · exact Or.inr (absentee_fields s st a h).1



/-- Witness for C1: closing the sample session with student 21 Present
and student 22 unmarked yields exactly one record per enrolled student. -/
theorem close_reconciliation_complete_witness :
    ∃ newRecs,
      (endSession 2 60 markedState).attendance = markedState.attendance ++ newRecs
      ∧ newRecs.map (fun a => a.student)
          = (rosterOf markedState 7).filter
              (fun stu => ¬ (studentsRecorded markedState 2).contains stu)
      ∧ (∀ a ∈ newRecs, a.status = .Absent ∧ a.session = some 2)
      ∧ (∀ stu ∈ rosterOf markedState 7,
          (recordsFor (endSession 2 60 markedState) 2 stu).length = 1)
      ∧ (∀ a ∈ (endSession 2 60 markedState).attendance, a.session = some 2 →
          a.status = .Present ∨ a.status = .Absent) :=
  close_reconciliation_complete markedState sampleSession 60
    (by decide) (by decide) (by decide) (by decide) (by decide)



/-- Closing a session never touches the enrollment collection. -/
theorem endSession_enrollments (i : SessionId) (now : Rat) (st : State) :
    (endSession i now st).enrollments = st.enrollments := by
  rcases hf : st.sessions.find? (fun t => t.id = i) with _ | fresh
  · simp [endSession, hf]
  · by_cases hs : fresh.status = .expired
    · simp [endSession, hf, hs]
    · simp [endSession, hf, hs, markAbsenteesForSession]

/-- Closing a session never touches the course collection. -/
theorem endSession_courses (i : SessionId) (now : Rat) (st : State) :
    (endSession i now st).courses = st.courses := by
  rcases hf : st.sessions.find? (fun t => t.id = i) with _ | fresh
  · simp [endSession, hf]
  · by_cases hs : fresh.status = .expired
    · simp [endSession, hf, hs]
    · simp [endSession, hf, hs, markAbsenteesForSession]

/-- Closing a session only ever appends attendance records. -/
theorem endSession_attendance_append (i : SessionId) (now : Rat) (st : State) :
    ∃ l, (endSession i now st).attendance = st.attendance ++ l := by
  rcases hf : st.sessions.find? (fun t => t.id = i) with _ | fresh
  · exact ⟨[], by simp [endSession, hf]⟩
  · by_cases hs : fresh.status = .expired
    · exact ⟨[], by simp [endSession, hf, hs]⟩
    · exact ⟨absenteeRecords { fresh with status := .expired, expiresAt := now }
          { st with sessions := st.sessions.map (expireIf i now) },
        by simp [endSession, hf, hs, markAbsenteesForSession]⟩

/-- Closing a session leaves the session list unchanged or applies the
expiry update pointwise. -/
theorem endSession_sessions_or (i : SessionId) (now : Rat) (st : State) :
    (endSession i now st).sessions = st.sessions
    ∨ (endSession i now st).sessions = st.sessions.map (expireIf i now) := by
  rcases hf : st.sessions.find? (fun t => t.id = i) with _ | fresh
  · left
    simp [endSession, hf]
  · by_cases hs : fresh.status = .expired
    · left
      simp [endSession, hf, hs]
    · right
      simp [endSession, hf, hs, markAbsenteesForSession]


/-- The identity transformer is a status step. -/
theorem statusStep_id : StatusStep id := fun _ => ⟨rfl, rfl, Or.inl rfl⟩

/-- The expiry update is a status step. -/
theorem statusStep_expireIf (i : SessionId) (now : Rat) : StatusStep (expireIf i now) := by
  intro t
  unfold expireIf
  by_cases h : t.id = i
  · simp [h]
  · simp [h]

/-- Status steps compose. -/
theorem statusStep_comp {f g : Session → Session}
    (hf : StatusStep f) (hg : StatusStep g) : StatusStep (f ∘ g) := by
  intro t
  rcases hg t with ⟨hid, hcourse, hor⟩
  rcases hf (g t) with ⟨hid2, hcourse2, hor2⟩
  refine ⟨hid2.trans hid, hcourse2.trans hcourse, ?_⟩
  rcases hor2 with h2 | h2
  · rcases hor with h | h
    · exact Or.inl (by rw [Function.comp_apply, h2, h])
    · refine Or.inr ?_
      simp only [Function.comp_apply, h2]
      exact h
  · exact Or.inr h2

/-- Force-closing a list of sessions acts on the session list as a
pointwise status step. -/
theorem endAll_sessions (now : Rat) (ids : List SessionId) (st : State) :
    ∃ f, StatusStep f ∧ (endAll ids now st).sessions = st.sessions.map f := by
  induction ids generalizing st with
  | nil => exact ⟨id, statusStep_id, by simp [endAll]⟩
  | cons j rest ih =>
    have hstep : endAll (j :: rest) now st = endAll rest now (endSession j now st) := by
      simp [endAll]
    rcases ih (endSession j now st) with ⟨f, hf, hsess⟩
    rcases endSession_sessions_or j now st with h | h
    · exact ⟨f, hf, by rw [hstep, hsess, h]⟩
    · refine ⟨f ∘ expireIf j now, statusStep_comp hf (statusStep_expireIf j now), ?_⟩
      rw [hstep, hsess, h, List.map_map]

/-- The force-close sweep never touches the enrollment collection. -/
theorem endAll_enrollments (now : Rat) (ids : List SessionId) (st : State) :
    (endAll ids now st).enrollments = st.enrollments := by
  induction ids generalizing st with
  | nil => rfl
  | cons j rest ih =>
    have hstep : endAll (j :: rest) now st = endAll rest now (endSession j now st) := by
      simp [endAll]
    rw [hstep, ih, endSession_enrollments]

/-- The force-close sweep never touches the course collection. -/
theorem endAll_courses (now : Rat) (ids : List SessionId) (st : State) :
    (endAll ids now st).courses = st.courses := by
  induction ids generalizing st with
  | nil => rfl
  | cons j rest ih =>
    have hstep : endAll (j :: rest) now st = endAll rest now (endSession j now st) := by
      simp [endAll]
    rw [hstep, ih, endSession_courses]

/-- The force-close sweep only ever appends attendance records. -/
theorem endAll_attendance_append (now : Rat) (ids : List SessionId) (st : State) :
    ∃ l, (endAll ids now st).attendance = st.attendance ++ l := by
  induction ids generalizing st with
  | nil => exact ⟨[], by simp [endAll]⟩
  | cons j rest ih =>
    have hstep : endAll (j :: rest) now st = endAll rest now (endSession j now st) := by
      simp [endAll]
    rcases ih (endSession j now st) with ⟨l1, h1⟩
    rcases endSession_attendance_append j now st with ⟨l0, h0⟩
    exact ⟨l0 ++ l1, by rw [hstep, h1, h0, List.append_assoc]⟩

/-- The expiry update preserves the list of session ids. -/
theorem ids_map_expireIf (i : SessionId) (now : Rat) (l : List Session) :
    (l.map (expireIf i now)).map (fun t => t.id) = l.map (fun t => t.id) := by
  rw [List.map_map]
  apply List.map_congr_left
  intro t _
  exact (statusStep_expireIf i now t).1

/-- Closing a session preserves the list of session ids. -/
theorem endSession_ids (i : SessionId) (now : Rat) (st : State) :
    (endSession i now st).sessions.map (fun t => t.id)
      = st.sessions.map (fun t => t.id) := by
  rcases endSession_sessions_or i now st with h | h
  · rw [h]
  · rw [h, ids_map_expireIf]

/-- With unique ids, two stored sessions with the same id are the same
document. -/
theorem eq_of_mem_of_nodup_ids {l : List Session} {t u : Session}
    (hnd : (l.map (fun t => t.id)).Nodup)
    (ht : t ∈ l) (hu : u ∈ l) (hid : t.id = u.id) : t = u :=
  List.inj_on_of_nodup_map hnd ht hu hid

/-- With unique ids, looking a stored session up by its id finds it. -/
theorem find?_id_eq_of_mem {l : List Session} {t : Session} {i : SessionId}
    (hnd : (l.map (fun t => t.id)).Nodup)
    (ht : t ∈ l) (hid : t.id = i) :
    l.find? (fun x => x.id = i) = some t := by
  induction l with
  | nil => cases ht
  | cons a rest ih =>
    rcases List.nodup_cons.mp hnd with ⟨hna, hnrest⟩
    rcases List.mem_cons.mp ht with rfl | ht2
    · simp [List.find?_cons, hid]
    · by_cases ha : a.id = i
      · exfalso
        apply hna
        show a.id ∈ List.map (fun t => t.id) rest
        rw [ha, ← hid]
        exact List.mem_map_of_mem (fun t => t.id) ht2
      · rw [List.find?_cons_of_neg _ (by simpa using ha)]
        exact ih hnrest ht2

/-- After closing session `i`, every stored session with id `i` is
Expired (given unique ids). -/
theorem endSession_kills (i : SessionId) (now : Rat) (st : State)
    (hnd : (st.sessions.map (fun t => t.id)).Nodup) :
    ∀ t2 ∈ (endSession i now st).sessions, t2.id = i → t2.status = .expired := by
  intro t2 ht2 hid
  rcases hf : st.sessions.find? (fun t => t.id = i) with _ | fresh
  · exfalso
    have hnone := List.find?_eq_none.mp hf t2 ?_
    · simp at hnone
      exact hnone hid
    · have hor := endSession_sessions_or i now st
      rcases hor with h | h
      · rw [h] at ht2
        exact ht2
      · rw [h] at ht2
        rcases List.mem_map.mp ht2 with ⟨t0, ht0, rfl⟩
        exfalso
        have hid0 : t0.id = i := by
          rw [← (statusStep_expireIf i now t0).1]
          exact hid
        have := List.find?_eq_none.mp hf t0 ht0
        simp at this
        exact this hid0
  · have hfresh_mem := List.mem_of_find?_eq_some hf
    have hfresh_id : fresh.id = i := by
      have := List.find?_some hf
      simpa using this
    by_cases hs : fresh.status = .expired
    · have hsame : (endSession i now st).sessions = st.sessions := by
        simp [endSession, hf, hs]
      rw [hsame] at ht2
      have : t2 = fresh := eq_of_mem_of_nodup_ids hnd ht2 hfresh_mem
        (by rw [hid, hfresh_id])
      rw [this]
      exact hs
    · have hmap : (endSession i now st).sessions = st.sessions.map (expireIf i now) := by
        simp [endSession, hf, hs, markAbsenteesForSession]
      rw [hmap] at ht2
      rcases List.mem_map.mp ht2 with ⟨t0, ht0, rfl⟩
      unfold expireIf
      by_cases h0 : t0.id = i
      · simp [h0]
      · exfalso
        apply h0
        rw [← hid]
        unfold expireIf
        simp [h0]

/-- After the force-close sweep over `ids`, every stored session whose id
is in `ids` is Expired (given unique ids). -/
theorem endAll_kills (now : Rat) (ids : List SessionId) (st : State)
    (hnd : (st.sessions.map (fun t => t.id)).Nodup) :
    ∀ i ∈ ids, ∀ t2 ∈ (endAll ids now st).sessions, t2.id = i → t2.status = .expired := by
  induction ids generalizing st with
  | nil => intro i hi; cases hi
  | cons j rest ih =>
    intro i hi t2 ht2 hid
    have hstep : endAll (j :: rest) now st = endAll rest now (endSession j now st) := by
      simp [endAll]
    have hnd2 : ((endSession j now st).sessions.map (fun t => t.id)).Nodup := by
      rw [endSession_ids]
      exact hnd
    rcases List.mem_cons.mp hi with rfl | hrest
    · rw [hstep] at ht2
      rcases endAll_sessions now rest (endSession i now st) with ⟨f, hfstep, hsess⟩
      rw [hsess] at ht2
      rcases List.mem_map.mp ht2 with ⟨t0, ht0, rfl⟩
      rcases hfstep t0 with ⟨hfid, -, hfor⟩
      have ht0id : t0.id = i := by rw [← hfid]; exact hid
      have ht0exp : t0.status = .expired :=
        endSession_kills i now st hnd t0 ht0 ht0id
      rcases hfor with h | h
      · rw [h]
        exact ht0exp
      · exact h
    · rw [hstep] at ht2
      exact ih (endSession j now st) hnd2 i hrest t2 ht2 hid

/-- When the close transition finds a non-Expired session, the resulting
attendance is the old attendance plus the absentee back-fill. -/
theorem endSession_attendance_of_found (i : SessionId) (now : Rat) (st : State)
    (t : Session)
    (hf : st.sessions.find? (fun x => x.id = i) = some t)
    (hs : ¬ t.status = .expired) :
    (endSession i now st).attendance = st.attendance ++ absenteeRecords t st := by
  simp [endSession, hf, hs, markAbsenteesForSession]
  rfl

/-- After the absentee back-fill, every enrolled student of the session's
course has a record for the session. -/
theorem absentee_covers (t : Session) (st : State) :
    ∀ stu ∈ rosterOf st t.course,
      ∃ a ∈ st.attendance ++ absenteeRecords t st,
        a.session = some t.id ∧ a.student = stu := by
  intro stu hstu
  by_cases hm : stu ∈ studentsRecorded st t.id
  · unfold studentsRecorded at hm
    rcases List.mem_map.mp hm with ⟨a, ha, rfl⟩
    have hsess := List.of_mem_filter ha
    simp at hsess
    exact ⟨a, List.mem_append_left _ (List.mem_of_mem_filter ha), hsess, rfl⟩
  · have hmsa : (absenteeRecords t st).map (fun a => a.student)
        = (rosterOf st t.course).filter
            (fun stu => ¬ (studentsRecorded st t.id).contains stu) :=
      map_student_absentees t (enrollmentsOf st t.course) (studentsRecorded st t.id)
    have hmem : stu ∈ (absenteeRecords t st).map (fun a => a.student) := by
      rw [hmsa]
      refine List.mem_filter.mpr ⟨hstu, ?_⟩
      simp [hm]
    rcases List.mem_map.mp hmem with ⟨a, ha, rfl⟩
    have hfields := absentee_fields t st a ha
    exact ⟨a, List.mem_append_right _ ha, hfields.2, rfl⟩


/-- Force-closing a duplicate-free list of Active sessions of one course
leaves every enrolled student with a record for each of them. -/
theorem endAll_covers (now : Rat) (ids : List SessionId) (st : State) (c : CourseId)
    (hnd : (st.sessions.map (fun t => t.id)).Nodup)
    (hids : ids.Nodup)
    (hact : ∀ i ∈ ids, ∃ t ∈ st.sessions, t.id = i ∧ t.status = .active ∧ t.course = c) :
    ∀ i ∈ ids, ∀ stu ∈ rosterOf st c,
      ∃ a ∈ (endAll ids now st).attendance, a.session = some i ∧ a.student = stu := by
  induction ids generalizing st with
  | nil =>
    intro i hi
    cases hi
  | cons j rest ih =>
    intro i hi stu hstu
    have hstep : endAll (j :: rest) now st = endAll rest now (endSession j now st) := by
      simp [endAll]
    rcases List.nodup_cons.mp hids with ⟨hjrest, hrestnd⟩
    rcases List.mem_cons.mp hi with rfl | hrest
    · rcases hact i (List.mem_cons_self i rest) with ⟨t, htmem, htid, htact, htc⟩
      have hf : st.sessions.find? (fun x => x.id = i) = some t :=
        find?_id_eq_of_mem hnd htmem htid
      have hs : ¬ t.status = .expired := by
        rw [htact]
        intro hcon
        cases hcon
      have hattend := endSession_attendance_of_found i now st t hf hs
      rcases absentee_covers t st stu (by rw [htc]; exact hstu) with ⟨a, hamem, hasess, hastu⟩
      have hamem2 : a ∈ (endSession i now st).attendance := by
        rw [hattend]
        exact hamem
      rcases endAll_attendance_append now rest (endSession i now st) with ⟨l, hl⟩
      refine ⟨a, ?_, ?_, hastu⟩
      · rw [hstep, hl]
        exact List.mem_append_left _ hamem2
      · rw [hasess, htid]
    · have hnd2 : ((endSession j now st).sessions.map (fun t => t.id)).Nodup := by
        rw [endSession_ids]
        exact hnd
      have hact2 : ∀ i2 ∈ rest, ∃ t ∈ (endSession j now st).sessions,
          t.id = i2 ∧ t.status = .active ∧ t.course = c := by
        intro i2 hi2
        rcases hact i2 (List.mem_cons_of_mem j hi2) with ⟨t, htmem, htid, htact, htc⟩
        have hne : ¬ t.id = j := by
          rw [htid]
          intro hcon
          rw [hcon] at hi2
          exact hjrest hi2
        rcases endSession_sessions_or j now st with h | h
        · refine ⟨t, ?_, htid, htact, htc⟩
          rw [h]
          exact htmem
        · refine ⟨expireIf j now t, ?_, ?_, ?_, ?_⟩
          · rw [h]
            exact List.mem_map_of_mem _ htmem
          · unfold expireIf
            rw [if_neg hne]
            exact htid
          · unfold expireIf
            rw [if_neg hne]
            exact htact
          · unfold expireIf
            rw [if_neg hne]
            exact htc
      have hroster2 : rosterOf (endSession j now st) c = rosterOf st c := by
        unfold rosterOf enrollmentsOf
        rw [endSession_enrollments]
      have hres := ih (endSession j now st) hnd2 hrestnd hact2 i hrest stu
        (by rw [hroster2]; exact hstu)
      rw [hstep]
      exact hres


/-- Shape of the store after the create route appended a fresh Active
session: it is the only Active session of the course, every previously
Active session of the course is Expired, and reconciliation covered the
roster for each of them. -/
theorem create_post_shape (courseId : CourseId) (now : Rat) (st : State) (sN : Session)
    (hnd : (st.sessions.map (fun t => t.id)).Nodup)
    (hidnew : sN.id ∉ st.sessions.map (fun t => t.id))
    (hstat : sN.status = .active) (hcourse : sN.course = courseId) :
    (((endAll ((st.sessions.filter
          (fun s => s.course = courseId ∧ s.status = .active)).map (fun s => s.id))
        now st).sessions ++ [sN]).filter
        (fun t => t.course = courseId ∧ t.status = .active)) = [sN]
    ∧ (∀ s ∈ st.sessions, s.course = courseId → s.status = .active →
        (∀ t ∈ (endAll ((st.sessions.filter
              (fun s => s.course = courseId ∧ s.status = .active)).map (fun s => s.id))
            now st).sessions ++ [sN], t.id = s.id → t.status = .expired)
        ∧ (∀ stu ∈ rosterOf st courseId,
            ∃ a ∈ (endAll ((st.sessions.filter
                  (fun s => s.course = courseId ∧ s.status = .active)).map (fun s => s.id))
                now st).attendance,
              a.session = some s.id ∧ a.student = stu)) := by
  set activeIds := (st.sessions.filter
      (fun s => s.course = courseId ∧ s.status = .active)).map (fun s => s.id) with hai
  have hmem_ids : ∀ s ∈ st.sessions, s.course = courseId → s.status = .active →
      s.id ∈ activeIds := by
    intro s hs hc ha
    rw [hai]
    exact List.mem_map_of_mem _ (List.mem_filter.mpr ⟨hs, by simp [hc, ha]⟩)
  constructor
  · rw [List.filter_append]
    have hnil : (endAll activeIds now st).sessions.filter
        (fun t => t.course = courseId ∧ t.status = .active) = [] := by
      rw [List.filter_eq_nil_iff]
      intro t ht
      rcases endAll_sessions now activeIds st with ⟨f, hfstep, hsess⟩
      rw [hsess] at ht
      rcases List.mem_map.mp ht with ⟨t0, ht0, rfl⟩
      rcases hfstep t0 with ⟨hfid, hfcourse, hfor⟩
      rcases hfor with heq | hexp
      · rw [heq]
        intro hcon
        simp only [decide_eq_true_eq] at hcon
        have hid0 : t0.id ∈ activeIds := hmem_ids t0 ht0 hcon.1 hcon.2
        have hkill := endAll_kills now activeIds st hnd t0.id hid0 (f t0)
          (by rw [hsess]; exact List.mem_map_of_mem _ ht0) hfid
        rw [heq] at hkill
        rw [hkill] at hcon
        cases hcon.2
      · intro hcon
        simp only [decide_eq_true_eq] at hcon
        rw [hexp] at hcon
        cases hcon.2
    rw [hnil]
    simp [hcourse, hstat]
  · intro s hs hc ha
    constructor
    · intro t ht hid
      rcases List.mem_append.mp ht with h | h
      · exact endAll_kills now activeIds st hnd s.id (hmem_ids s hs hc ha) t h hid
      · exfalso
        rcases List.mem_singleton.mp h with rfl
        apply hidnew
        rw [hid]
        exact List.mem_map_of_mem _ hs
    · have hids_nodup : activeIds.Nodup := by
        rw [hai]
        have hsub : List.Sublist
            ((st.sessions.filter
              (fun s => s.course = courseId ∧ s.status = .active)).map (fun s => s.id))
            (st.sessions.map (fun s => s.id)) :=
          (List.filter_sublist _).map _
        exact hnd.sublist hsub
      have hact : ∀ i ∈ activeIds, ∃ t ∈ st.sessions,
          t.id = i ∧ t.status = .active ∧ t.course = courseId := by
        intro i hi
        rw [hai] at hi
        rcases List.mem_map.mp hi with ⟨t, ht, rfl⟩
        have hft := List.mem_filter.mp ht
        refine ⟨t, hft.1, rfl, ?_, ?_⟩
        · have := hft.2
          simp at this
          exact this.2
        · have := hft.2
          simp at this
          exact this.1
      exact endAll_covers now activeIds st courseId hnd hids_nodup hact s.id
        (hmem_ids s hs hc ha)


/-- Claim C3: a successful create force-closes (with full absentee
reconciliation) every previously Active session of the course before
persisting the new Active session, so that afterwards exactly one
Active session exists for the course — the new one — and each previous
one is Expired with every enrolled student holding a record for it. -/
theorem create_single_active
    (courseId : CourseId) (teacherId : UserId) (typ? : Option SessionType)
    (duration? : Option Rat) (loc? : Option LocInput) (now : Rat) (newId tok : Nat)
    (st : State) (sNew : Session)
    (hnd : (st.sessions.map (fun t => t.id)).Nodup)
    (hfresh : newId ∉ st.sessions.map (fun t => t.id))
    (hok : (createSession courseId teacherId typ? duration? loc? now newId tok st).2
      = .ok sNew) :
    ((createSession courseId teacherId typ? duration? loc? now newId tok
        st).1.sessions.filter (fun t => t.course = courseId ∧ t.status = .active)) = [sNew]
    ∧ sNew.id = newId ∧ sNew.course = courseId ∧ sNew.status = .active
    ∧ (∀ s ∈ st.sessions, s.course = courseId → s.status = .active →
        (∀ t ∈ (createSession courseId teacherId typ? duration? loc? now newId tok
            st).1.sessions, t.id = s.id → t.status = .expired)
        ∧ (∀ stu ∈ rosterOf st courseId,
            ∃ a ∈ (createSession courseId teacherId typ? duration? loc? now newId tok
                st).1.attendance, a.session = some s.id ∧ a.student = stu)) := by
  have hkey : (createSession courseId teacherId typ? duration? loc? now newId tok
          st).1.sessions
        = (endAll ((st.sessions.filter
            (fun s => s.course = courseId ∧ s.status = .active)).map (fun s => s.id))
            now st).sessions ++ [sNew]
      ∧ (createSession courseId teacherId typ? duration? loc? now newId tok
          st).1.attendance
        = (endAll ((st.sessions.filter
            (fun s => s.course = courseId ∧ s.status = .active)).map (fun s => s.id))
            now st).attendance
      ∧ sNew.id = newId ∧ sNew.course = courseId ∧ sNew.status = .active := by
    rcases hcourse : st.courses.find? (fun c => c.id = courseId) with _ | course
    · simp [createSession, hcourse] at hok
    · by_cases hteach : course.teacher ≠ teacherId
      · simp [createSession, hcourse, hteach] at hok
      · by_cases hq : typ?.getD .MANUAL = .QR
        · rcases hloc : loc? with _ | l
          · simp [createSession, hcourse, hteach, hq, hloc] at hok
          · rcases hla : l.lat with _ | la
            · simp [createSession, hcourse, hteach, hq, hloc, hla] at hok
            · rcases hln : l.lng with _ | ln
              · simp [createSession, hcourse, hteach, hq, hloc, hla, hln] at hok
              · rcases hacc : l.accuracy with _ | acc
                · simp [createSession, hcourse, hteach, hq, hloc, hla, hln, hacc] at hok
                · simp [createSession, hcourse, hteach, hq, hloc, hla, hln, hacc]
                    at hok ⊢
                  rw [← hok]
                  simp [newSessionDoc]
        · simp [createSession, hcourse, hteach, hq] at hok ⊢
          rw [← hok]
          simp [newSessionDoc]
  rcases hkey with ⟨hsess, hatt, hid, hcourse2, hstat⟩
  have hidnew : sNew.id ∉ st.sessions.map (fun t => t.id) := by
    rw [hid]
    exact hfresh
  have hshape := create_post_shape courseId now st sNew hnd hidnew hstat hcourse2
  refine ⟨?_, hid, hcourse2, hstat, ?_⟩
  · rw [hsess]
    exact hshape.1
  · intro s hs hc ha
    refine ⟨?_, ?_⟩
    · intro t ht hid2
      rw [hsess] at ht
      exact (hshape.2 s hs hc ha).1 t ht hid2
    · intro stu hstu
      rw [hatt]
      exact (hshape.2 s hs hc ha).2 stu hstu


/-- Witness for C3: creating a MANUAL session on course 7 while session 2
is Active expires session 2, reconciles both enrolled students, and
leaves the new session as the only Active one. -/
theorem create_single_active_witness :
    ((createSession 7 3 (some .MANUAL) none none 100 6 777 sampleState).1.sessions.filter
        (fun t => t.course = 7 ∧ t.status = .active)) = [createdSample]
    ∧ createdSample.id = 6 ∧ createdSample.course = 7 ∧ createdSample.status = .active
    ∧ (∀ s ∈ sampleState.sessions, s.course = 7 → s.status = .active →
        (∀ t ∈ (createSession 7 3 (some .MANUAL) none none 100 6 777
            sampleState).1.sessions, t.id = s.id → t.status = .expired)
        ∧ (∀ stu ∈ rosterOf sampleState 7,
            ∃ a ∈ (createSession 7 3 (some .MANUAL) none none 100 6 777
                sampleState).1.attendance, a.session = some s.id ∧ a.student = stu)) :=
  create_single_active 7 3 (some .MANUAL) none none 100 6 777 sampleState createdSample
    (by decide) (by decide) (by rfl)


end UniTrack
